import Mathlib

/-!
Shallow embedding of the BioKG-Builder pipeline logic (entity-pair
extraction, similarity-based deduplication, substitution, graph
construction, keyword-centered subgraph search, batch analysis and
top-level orchestration), together with theorems checking the
specification's claims against the embedded code.

The embedding follows the Python sources in `biokg_builder/`:
`processor.py`, `visualizer.py`, `analyzer.py`, `core.py`.
-/

namespace BioKG

/-- ASCII whitespace class of Python's `\s`, `str.strip()` and `str.split()`:
space, tab, newline, carriage return, vertical tab, form feed. -/
def isPySpace (c : Char) : Bool :=
  c = ' ' || c = '\t' || c = '\n' || c = '\r' || c = '\x0b' || c = '\x0c'

/-- Python `str.strip()` on a character list: drop leading and trailing
whitespace. -/
def pyStripList (l : List Char) : List Char :=
  ((l.dropWhile isPySpace).reverse.dropWhile isPySpace).reverse

/-- Python `str.strip()`. -/
def pyStrip (s : String) : String := ⟨pyStripList s.data⟩

/-- Python substring containment `needle in hay` (character lists). -/
def containsSubstrList (hay needle : List Char) : Bool :=
  needle.isPrefixOf hay ||
    match hay with
    | [] => false
    | _ :: t => containsSubstrList t needle

/-- Python substring containment `needle in hay` on strings. -/
def containsSubstr (hay needle : String) : Bool :=
  containsSubstrList hay.data needle.data

/-- One attempt of the regex `\(([^,]+),\s*([^\)]+)\)` from
`EntityProcessor.pattern` / `NetworkVisualizer.pattern` anchored at the head
of `l`, with Python `re` semantics (greedy character classes, backtracking of
`\s*` when `[^\)]+` would otherwise be empty).  On success it returns the two
captured groups — already stripped, as every call site strips them — and the
rest of the input after the match.  Stripping the second raw capture equals
stripping the whole run `t` of non-`)` characters after the comma, so `t` is
stripped directly. -/
def matchOne (l : List Char) : Option ((String × String) × List Char) :=
  match l with
  | [] => none
  | c :: r0 =>
    let g1 := r0.takeWhile (fun x => x ≠ ',')
    let r1 := r0.dropWhile (fun x => x ≠ ',')
    let t := r1.tail.takeWhile (fun x => x ≠ ')')
    let r3 := r1.tail.dropWhile (fun x => x ≠ ')')
    if c = '(' ∧ g1 ≠ [] ∧ r1 ≠ [] ∧ t ≠ [] ∧ r3 ≠ [] then
      some ((⟨pyStripList g1⟩, ⟨pyStripList t⟩), r3.tail)
    else none

/-- Python `re.findall` for the fixed pattern: scan left to right, emit each
non-overlapping match, advance by one character on failure.  The `fuel`
argument is only a structural-termination device; every successful match
consumes at least one character, so any `fuel ≥ length` computes the scan
(`scanPairsF_fuel_irrel`). -/
def scanPairsF : Nat → List Char → List (String × String)
  | _, [] => []
  | 0, _ :: _ => []
  | fuel + 1, c :: cs =>
    match matchOne (c :: cs) with
    | some (p, rest) => p :: scanPairsF fuel rest
    | none => scanPairsF fuel cs

/-- The scan of a whole character list. -/
def scanPairs (l : List Char) : List (String × String) := scanPairsF l.length l

/-- Embedding of `re.findall(self.pattern, value)` with both groups stripped, as performed
by `EntityProcessor.extract_entities` and `NetworkVisualizer`. -/
def extractPairs (s : String) : List (String × String) := scanPairs s.data

/-- Python `str.lower()` (ASCII). -/
def pyLower (s : String) : String := ⟨s.data.map Char.toLower⟩

/-- Python no-argument `str.split()`: split on runs of whitespace, no empty
tokens. -/
def pySplitGo : List Char → List String
  | [] => []
  | c :: cs =>
    if isPySpace c then pySplitGo cs
    else ⟨c :: cs.takeWhile (fun x => !isPySpace x)⟩ ::
      pySplitGo (cs.dropWhile (fun x => !isPySpace x))
termination_by l => l.length
decreasing_by
  · simp
  · simp only [List.length_cons]
    exact Nat.lt_succ_of_le (List.dropWhile_suffix _).length_le

/-- Python no-argument `str.split()` on strings. -/
def pySplit (s : String) : List String := pySplitGo s.data

/-- Embedding of `EntityProcessor._is_similar`: similar when one lowercased string is a
substring of the other, or the Jaccard similarity of the lowercased
whitespace-token sets exceeds the threshold (`common / total > threshold`;
false when both token sets are empty). -/
def isSimilar (threshold : ℚ) (s1 s2 : String) : Bool :=
  let l1 := pyLower s1
  let l2 := pyLower s2
  if containsSubstr l2 l1 || containsSubstr l1 l2 then true
  else
    let words1 := (pySplit l1).toFinset
    let words2 := (pySplit l2).toFinset
    let common := (words1 ∩ words2).card
    let total := (words1 ∪ words2).card
    if total > 0 then decide ((common : ℚ) / total > threshold) else false

/-- Python `dict` assignment `m[k] = v`: replace in place if the key is
present, else append at the end (insertion order preserved). -/
def dictInsert (m : List (String × String)) (k v : String) :
    List (String × String) :=
  match m with
  | [] => [(k, v)]
  | (k', v') :: rest =>
    if k' = k then (k', v) :: rest else (k', v') :: dictInsert rest k v

/-- All index pairs `i < j` of a list, in the iteration order of the nested
loops `for i in range(n): for j in range(i+1, n)`. -/
def allPairs : List String → List (String × String)
  | [] => []
  | x :: xs => xs.map (fun y => (x, y)) ++ allPairs xs

/-- Common loop body of `_find_similar_with_strings` and
`_find_similar_with_embeddings`: for every pair `i < j` judged similar,
the shorter string becomes the canonical value and the longer the key
(ties: the earlier entity `entities[i]` becomes canonical). -/
def findSimilarCore (sim : String → String → Bool) (entities : List String) :
    List (String × String) :=
  (allPairs entities).foldl
    (fun m pr =>
      if sim pr.1 pr.2 then
        if pr.1.length ≤ pr.2.length then dictInsert m pr.2 pr.1
        else dictInsert m pr.1 pr.2
      else m)
    []

/-- Embedding of `EntityProcessor._find_similar_with_strings`. -/
def findSimilarWithStrings (threshold : ℚ) (entities : List String) :
    List (String × String) :=
  findSimilarCore (isSimilar threshold) entities

/-- Embedding of `EntityProcessor._find_similar_with_embeddings`, with the external
sentence-embedding model's judgement
`util.pytorch_cos_sim(emb_i, emb_j) > threshold` abstracted as an oracle
`sim` on the two entity strings (the embedding of an entity is a function
of the entity string alone); the loop structure and the shorter-string
tie-break are from the source. -/
def findSimilarWithEmbeddings (sim : String → String → Bool)
    (entities : List String) : List (String × String) :=
  findSimilarCore sim entities

/-- A row of the tabular dataset: the `Title` column, the `Abstract` column
(`none` models a missing value, `pandas.isna`), and the
`Answer to Question 2` extraction-result column. -/
structure DRow where
  title : String
  abstract : Option String
  answer : String
deriving DecidableEq

/-- Boolean strict lexicographic comparison of character lists by code
point, Python's ordering on strings. -/
def lexLt : List Char → List Char → Bool
  | [], [] => false
  | [], _ :: _ => true
  | _ :: _, [] => false
  | c :: cs, d :: ds => if c < d then true else if c = d then lexLt cs ds else false

/-- Python's `s < t` on strings as a Boolean (code-point lexicographic), and
`s ≤ t` as its reflexive closure `¬ t < s`. -/
def strLe (s t : String) : Bool := !lexLt t.data s.data

/-- Insertion into a sorted list under a Boolean comparison (the Boolean
form computes in the kernel; `insertSortedB_eq_orderedInsert` relates it to
the library's ordered insert). -/
def insertSortedB (le : String → String → Bool) (x : String) :
    List String → List String
  | [] => [x]
  | y :: ys => if le x y then x :: y :: ys else y :: insertSortedB le x ys

/-- Insertion sort under a Boolean comparison; with `strLe` this is
Python's `sorted` on strings (`sortB_eq_insertionSort`). -/
def sortB (le : String → String → Bool) (l : List String) : List String :=
  l.foldr (insertSortedB le) []

/-- Embedding of `EntityProcessor.extract_entities`: union the stripped components of
every regex match over all cells of the extraction column into a set
(`dedup` of the occurrence list), drop empty strings, and return the sorted
list of the set (`sorted` in Python — the unique ascending enumeration of
the distinct entities). -/
def extract_entities (rows : List DRow) : List String :=
  let all := rows.flatMap
    (fun r => (extractPairs r.answer).flatMap (fun pr => [pr.1, pr.2]))
  sortB strLe ((all.filter (fun e => e ≠ "")).dedup)

/-- Python `str.replace(pat, rep)`: replace every non-overlapping occurrence
left to right.  An empty pattern inserts `rep` before every character and at
the end, as in Python.  The `fuel` argument is only a structural-termination
device; each replacement consumes at least one character, so any
`fuel ≥ length` computes the replacement (`pyReplaceF_fuel_irrel`). -/
def pyReplaceF : Nat → List Char → List Char → List Char → List Char
  | _, s, [], rep => rep ++ s.flatMap (fun c => c :: rep)
  | _, [], _ :: _, _ => []
  | 0, s, _ :: _, _ => s
  | fuel + 1, c :: cs, p :: ps, rep =>
    if (p :: ps).isPrefixOf (c :: cs) then
      rep ++ pyReplaceF fuel (cs.drop ps.length) (p :: ps) rep
    else c :: pyReplaceF fuel cs (p :: ps) rep

/-- Python `str.replace(pat, rep)` on character lists. -/
def pyReplaceList (s pat rep : List Char) : List Char :=
  pyReplaceF s.length s pat rep

/-- Python `str.replace` on strings. -/
def pyReplace (s pat rep : String) : String :=
  ⟨pyReplaceList s.data pat.data rep.data⟩

/-- Embedding of `EntityProcessor.substitute_similar_entities`: with an empty map the
dataframe is returned unchanged; otherwise every cell of the extraction
column is rewritten by applying each `(duplicate, canonical)` entry of the
map, in insertion order, as `cell.replace(duplicate, canonical)`. -/
def substitute_similar_entities (similarPhrases : List (String × String))
    (rows : List DRow) : List DRow :=
  if similarPhrases = [] then rows
  else rows.map (fun r =>
    { r with answer :=
        similarPhrases.foldl (fun cell pr => pyReplace cell pr.1 pr.2) r.answer })

/-- An undirected `networkx.Graph`: node list in insertion order, at most one
edge per unordered node pair, stored with the orientation of its first
`add_edge` call.  Node `label` attributes are not stored because every call
site sets `label` equal to the node name; per-edge `title` attributes are
dropped (they never feed back into the logic under verification). -/
structure NXGraph where
  nodes : List String
  edges : List (String × String)
deriving DecidableEq

/-- Embedding of `networkx.Graph.add_node`: no-op when present. -/
def addNode (G : NXGraph) (a : String) : NXGraph :=
  if a ∈ G.nodes then G else { G with nodes := G.nodes ++ [a] }

/-- Undirected edge membership. -/
def hasEdge (G : NXGraph) (a b : String) : Bool :=
  (a, b) ∈ G.edges || (b, a) ∈ G.edges

/-- Embedding of `networkx.Graph.add_edge`: ensure both endpoints exist, then add the edge
unless already present. -/
def addEdge (G : NXGraph) (a b : String) : NXGraph :=
  let G1 := addNode (addNode G a) b
  if hasEdge G1 a b then G1 else { G1 with edges := G1.edges ++ [(a, b)] }

/-- The exclusion/emptiness check of `NetworkVisualizer.create_filtered_network`:
`entity_a and entity_b and not any(exc in entity_a for exc in exclude_entities)
and not any(exc in entity_b for exc in exclude_entities)`. -/
def acceptEntities (excludeEntities : List String) (a b : String) : Bool :=
  a ≠ "" && b ≠ "" &&
    excludeEntities.all (fun exc => !containsSubstr a exc) &&
    excludeEntities.all (fun exc => !containsSubstr b exc)

/-- The extracted `(entity_a, entity_b, source)` triples of one row, in match
order: `re.findall` over the `Answer to Question 2` cell, both entities
stripped, with the row's `Title` as provenance. -/
def rowTriples (r : DRow) : List (String × String × String) :=
  (extractPairs r.answer).map (fun pr => (pr.1, pr.2, r.title))

/-- The graph-building loop of `create_filtered_network`: iterate the rows,
iterate the regex matches of each row, and for each accepted pair add both
nodes and the edge. -/
def buildFilteredGraph (rows : List DRow) (excludeEntities : List String) :
    NXGraph :=
  rows.foldl
    (fun G r =>
      (rowTriples r).foldl
        (fun G t =>
          if acceptEntities excludeEntities t.1 t.2.1 then addEdge G t.1 t.2.1
          else G)
        G)
    ⟨[], []⟩

/-- Unconditional graph construction from a triple list (used to state the
filter refinement of `create_filtered_network`). -/
def buildGraphOfTriples (ts : List (String × String × String)) : NXGraph :=
  ts.foldl (fun G t => addEdge G t.1 t.2.1) ⟨[], []⟩

/-- The seed set of `NetworkVisualizer._search_network`: all nodes whose label
(the node name) contains the keyword as a case-insensitive substring. -/
def seedNodes (G : NXGraph) (keyword : String) : Finset String :=
  (G.nodes.filter (fun n => containsSubstr (pyLower n) (pyLower keyword))).toFinset

/-- One round of the expansion loop of `_search_network`: union the current
set with the neighbor sets of every currently-included node (the `if node in
graph` guard is reflected by restricting to `G.nodes`). -/
def expandStep (G : NXGraph) (S : Finset String) : Finset String :=
  S ∪ (G.nodes.filter (fun n => decide (∃ m ∈ S, hasEdge G m n = true))).toFinset

/-- Embedding of `networkx.Graph.subgraph`: the node-induced subgraph on `S`. -/
def inducedSubgraph (G : NXGraph) (S : Finset String) : NXGraph :=
  { nodes := G.nodes.filter (fun n => decide (n ∈ S)),
    edges := G.edges.filter (fun e => decide (e.1 ∈ S) && decide (e.2 ∈ S)) }

/-- Embedding of `NetworkVisualizer._search_network`: seed on the keyword, expand `depth`
times, return the induced subgraph (a fresh empty graph when no node matches
the keyword). -/
def searchNetwork (G : NXGraph) (keyword : String) (depth : Nat) : NXGraph :=
  let seeds := seedNodes G keyword
  if seeds = ∅ then ⟨[], []⟩
  else inducedSubgraph G ((expandStep G)^[depth] seeds)

/-- Embedding of `CausalAnalyzer.analyze_abstract`, with the external chat-completion call
abstracted as an oracle returning either the generated text or an exception
message: a missing (`pandas.isna`) or empty abstract yields `""` without
calling the model; a failed call is caught and yields `""`; a successful call
yields the stripped response content. -/
def analyzeAbstract (oracle : String → Except String String)
    (abstract : Option String) : String :=
  match abstract with
  | none => ""
  | some a =>
    if a = "" then ""
    else
      match oracle a with
      | .ok content => pyStrip content
      | .error _ => ""

/-- Row loop of `CausalAnalyzer.batch_analyze`: `i` is the absolute index of
the head of the remaining rows. -/
def batchAnalyzeGo (oracle : String → Except String String) (startRow : Nat) :
    Nat → List DRow → List DRow
  | _, [] => []
  | i, r :: rs =>
    (if startRow ≤ i then { r with answer := analyzeAbstract oracle r.abstract }
     else r) :: batchAnalyzeGo oracle startRow (i + 1) rs

/-- Embedding of `CausalAnalyzer.batch_analyze` (both the sequential and the
parallel path write, for every row index `i ≥ start_row`, exactly the value
`analyze_abstract(row.abstract)` into the answer column; rows before
`start_row` are left unchanged). -/
def batchAnalyze (oracle : String → Except String String) (rows : List DRow)
    (startRow : Nat) : List DRow :=
  batchAnalyzeGo oracle startRow 0 rows

/-- A value of the `results['statistics']` dictionary. -/
inductive StatVal where
  | nat : Nat → StatVal
  | int : Int → StatVal
  | net : List (String × Int) → StatVal
deriving DecidableEq

/-- The `results` dictionary assembled by `BioKGBuilder.build_knowledge_graph`:
`results = {'keyword': keyword, 'files': {}, 'statistics': {}}` plus the keys
set as the pipeline advances, and the `error` key set by the top-level
`except` clause. -/
structure BuildResults where
  keyword : String
  files : List (String × String)
  statistics : List (String × StatVal)
  entities : Option (List String)
  node_names : Option (List String)
  ai_summary : Option String
  error : Option String
deriving DecidableEq

/-- The pipeline stages called by `build_knowledge_graph`, each abstracted as
an oracle that either returns the stage's value or raises (is `.error`) with
an exception message: the stages wrap network, model and disk calls, so any
of them may raise an unexpected exception. -/
structure PipelineOracles where
  searchAndSave : Except String (List DRow × String)
  batchAnalyzeStage : List DRow → Except String (List DRow)
  saveResults : List DRow → Except String String
  processEntitiesStage :
    List DRow → Except String (List DRow × List String × List (String × String))
  saveProcessedData : List DRow → Except String String
  createFullNetwork : List DRow → Except String String
  createFilteredNetwork : List DRow → Except String (String × List String)
  analyzeNetworkStructure : List DRow → Except String (List (String × Int))
  generateSummary : List String → Except String String
  generateFullReport : Except String String
  saveResultsJson : Except String String

/-- Embedding of `BioKGBuilder.build_knowledge_graph`: run the stages in order, mutating
`results` after each successful call; an empty search result returns early
with zero statistics; any exception is caught by the top-level `except`
clause, which records its message under `error` and returns the `results`
accumulated so far. -/
def buildKnowledgeGraph (o : PipelineOracles) (keyword : String) : BuildResults :=
  let r0 : BuildResults :=
    { keyword := keyword, files := [], statistics := [], entities := none,
      node_names := none, ai_summary := none, error := none }
  match o.searchAndSave with
  | .error e => { r0 with error := some e }
  | .ok (df, searchFile) =>
    let r1 := { r0 with
      files := r0.files ++ [("search_results", searchFile)],
      statistics := r0.statistics ++ [("total_articles", StatVal.nat df.length)] }
    if df = [] then r1
    else
      match o.batchAnalyzeStage df with
      | .error e => { r1 with error := some e }
      | .ok df2 =>
        match o.saveResults df2 with
        | .error e => { r1 with error := some e }
        | .ok causalFile =>
          let r2 := { r1 with files := r1.files ++ [("causal_analysis", causalFile)] }
          match o.processEntitiesStage df2 with
          | .error e => { r2 with error := some e }
          | .ok (processedDf, entities, similarPhrases) =>
            match o.saveProcessedData processedDf with
            | .error e => { r2 with error := some e }
            | .ok processedFile =>
              let r3 := { r2 with
                files := r2.files ++ [("processed_data", processedFile)],
                entities := some entities,
                statistics := r2.statistics ++
                  [("total_entities", StatVal.nat entities.length),
                   ("unique_entities",
                     StatVal.int ((entities.length : Int) - similarPhrases.length))] }
              match o.createFullNetwork processedDf with
              | .error e => { r3 with error := some e }
              | .ok fullNetworkFile =>
                let r4 := { r3 with
                  files := r3.files ++ [("full_network", fullNetworkFile)] }
                match o.createFilteredNetwork processedDf with
                | .error e => { r4 with error := some e }
                | .ok (filteredNetworkFile, nodeNames) =>
                  let r5 := { r4 with
                    files := r4.files ++ [("filtered_network", filteredNetworkFile)],
                    node_names := some nodeNames }
                  match o.analyzeNetworkStructure processedDf with
                  | .error e => { r5 with error := some e }
                  | .ok networkStats =>
                    let r6 := { r5 with
                      statistics := r5.statistics ++
                        [("network_stats", StatVal.net networkStats)] }
                    match o.generateSummary nodeNames with
                    | .error e => { r6 with error := some e }
                    | .ok aiSummary =>
                      let r7 := { r6 with ai_summary := some aiSummary }
                      match o.generateFullReport with
                      | .error e => { r7 with error := some e }
                      | .ok reportFile =>
                        let r8 := { r7 with
                          files := r7.files ++ [("report", reportFile)] }
                        match o.saveResultsJson with
                        | .error e => { r8 with error := some e }
                        | .ok jsonFile =>
                          { r8 with
                            files := r8.files ++ [("json_results", jsonFile)] }

/-- Modelled from the spec's words (for comparison with the code's
`acceptEntities`): a triple is rejected iff either entity string contains,
as a case-sensitive substring, any string in the exclusion list, or either
entity is empty. -/
def rejectSpec (excludeEntities : List String) (a b : String) : Bool :=
  excludeEntities.any (fun exc => containsSubstr a exc) ||
  excludeEntities.any (fun exc => containsSubstr b exc) ||
  a = "" || b = ""

/-- Model oracle whose call succeeds with empty content (a well-formed but
empty chat-completion response). -/
def okEmptyOracle : String → Except String String := fun _ => Except.ok ""

/-- Concrete stage oracles whose causal-analysis stage raises: the search
stage returns one article, `batch_analyze` raises "boom", the remaining
stages would succeed. -/
def failingOracles : PipelineOracles where
  searchAndSave := Except.ok ([⟨"t", some "A", ""⟩], "search.xlsx")
  batchAnalyzeStage := fun _ => Except.error "boom"
  saveResults := fun _ => Except.ok "causal.xlsx"
  processEntitiesStage := fun df => Except.ok (df, [], [])
  saveProcessedData := fun _ => Except.ok "processed.xlsx"
  createFullNetwork := fun _ => Except.ok "full.html"
  createFilteredNetwork := fun _ => Except.ok ("filtered.html", [])
  analyzeNetworkStructure := fun _ => Except.ok []
  generateSummary := fun _ => Except.ok "summary"
  generateFullReport := Except.ok "report.md"
  saveResultsJson := Except.ok "results.json"

/-- Concrete stage oracles whose last stage raises: every stage succeeds
except `save_results_json` (disk output), which raises "disk full". -/
def lateFailingOracles : PipelineOracles where
  searchAndSave := Except.ok ([⟨"t", some "A", ""⟩], "search.xlsx")
  batchAnalyzeStage := fun df => Except.ok df
  saveResults := fun _ => Except.ok "causal.xlsx"
  processEntitiesStage := fun df => Except.ok (df, [], [])
  saveProcessedData := fun _ => Except.ok "processed.xlsx"
  createFullNetwork := fun _ => Except.ok "full.html"
  createFilteredNetwork := fun _ => Except.ok ("filtered.html", [])
  analyzeNetworkStructure := fun _ => Except.ok []
  generateSummary := fun _ => Except.ok "summary"
  generateFullReport := Except.ok "report.md"
  saveResultsJson := Except.error "disk full"

theorem dropWhile_length_le (p : Char → Bool) (l : List Char) :
    (l.dropWhile p).length ≤ l.length :=
  (List.dropWhile_suffix p).length_le

theorem matchOne_rest_length {l : List Char} {p : String × String}
    {rest : List Char} (h : matchOne l = some (p, rest)) :
    rest.length < l.length := by
  cases l with
  | nil => exact absurd h (by simp [matchOne])
  | cons c r0 =>
    simp only [matchOne] at h
    split at h
    case isFalse => exact absurd h (by simp)
    case isTrue hc =>
      obtain ⟨-, -, hr1, -, hr3⟩ := hc
      simp only [Option.some.injEq, Prod.mk.injEq] at h
      have hrest : rest = (List.dropWhile (fun x => decide (x ≠ ')'))
          (List.dropWhile (fun x => decide (x ≠ ',')) r0).tail).tail := h.2.symm
      have l1 : (List.dropWhile (fun x => decide (x ≠ ',')) r0).length ≤ r0.length :=
        dropWhile_length_le _ _
      have l2 : (List.dropWhile (fun x => decide (x ≠ ')'))
          (List.dropWhile (fun x => decide (x ≠ ',')) r0).tail).length ≤
          (List.dropWhile (fun x => decide (x ≠ ',')) r0).tail.length :=
        dropWhile_length_le _ _
      have e1 : (List.dropWhile (fun x => decide (x ≠ ',')) r0).tail.length =
          (List.dropWhile (fun x => decide (x ≠ ',')) r0).length - 1 :=
        List.length_tail _
      have e2 : rest.length = (List.dropWhile (fun x => decide (x ≠ ')'))
          (List.dropWhile (fun x => decide (x ≠ ',')) r0).tail).length - 1 := by
        rw [hrest]; exact List.length_tail _
      have n1 : (List.dropWhile (fun x => decide (x ≠ ',')) r0).length ≠ 0 := by
        simpa [List.length_eq_zero] using hr1
      simp only [List.length_cons]
      omega

theorem scanPairsF_fuel_irrel :
    ∀ (fuel fuel' : Nat) (l : List Char), l.length ≤ fuel → l.length ≤ fuel' →
      scanPairsF fuel l = scanPairsF fuel' l := by
  intro fuel
  induction fuel with
  | zero =>
    intro fuel' l hl _
    have : l = [] := List.length_eq_zero.mp (Nat.le_zero.mp hl)
    subst this
    cases fuel' <;> rfl
  | succ f ih =>
    intro fuel' l hl hl'
    cases l with
    | nil => cases fuel' <;> rfl
    | cons c cs =>
      cases fuel' with
      | zero => exact absurd hl' (by simp)
      | succ f' =>
        simp only [scanPairsF]
        cases hm : matchOne (c :: cs) with
        | some pr =>
          obtain ⟨p, rest⟩ := pr
          have hr := matchOne_rest_length hm
          simp only [List.length_cons] at hl hl' hr
          have h1 : rest.length ≤ f := by omega
          have h2 : rest.length ≤ f' := by omega
          show p :: scanPairsF f rest = p :: scanPairsF f' rest
          rw [ih f' rest h1 h2]
        | none =>
          simp only [List.length_cons] at hl hl'
          show scanPairsF f cs = scanPairsF f' cs
          exact ih f' cs (by omega) (by omega)

theorem scanPairs_nil : scanPairs [] = [] := rfl

theorem scanPairs_cons_some {c : Char} {cs : List Char} {p : String × String}
    {rest : List Char} (h : matchOne (c :: cs) = some (p, rest)) :
    scanPairs (c :: cs) = p :: scanPairs rest := by
  have hr := matchOne_rest_length h
  simp only [List.length_cons] at hr
  unfold scanPairs
  simp only [List.length_cons, scanPairsF, h]
  rw [scanPairsF_fuel_irrel cs.length rest.length rest (by omega) (le_refl _)]

theorem scanPairs_cons_none {c : Char} {cs : List Char}
    (h : matchOne (c :: cs) = none) :
    scanPairs (c :: cs) = scanPairs cs := by
  unfold scanPairs
  simp only [List.length_cons, scanPairsF, h]

theorem dropWhile_cons_head_false {p : Char → Bool} :
    ∀ {l : List Char} {c : Char} {r : List Char},
      l.dropWhile p = c :: r → p c = false := by
  intro l
  induction l with
  | nil => intro c r h; exact absurd h (by simp)
  | cons x xs ih =>
    intro c r h
    by_cases hx : p x
    · rw [List.dropWhile_cons_of_pos hx] at h
      exact ih h
    · rw [List.dropWhile_cons_of_neg hx] at h
      cases h
      exact Bool.eq_false_iff.mpr hx

theorem takeWhile_dropWhile_append {p : Char → Bool} {a : List Char}
    {c : Char} {r : List Char} (ha : ∀ x ∈ a, p x = true) (hc : p c = false) :
    (a ++ c :: r).takeWhile p = a ∧ (a ++ c :: r).dropWhile p = c :: r := by
  induction a with
  | nil =>
    constructor
    · simp [List.takeWhile_cons, hc]
    · simp [List.dropWhile_cons, hc]
  | cons x xs ih =>
    have hx : p x = true := ha x (by simp)
    have ih' := ih (fun y hy => ha y (by simp [hy]))
    constructor
    · simp [List.takeWhile_cons, hx, ih'.1]
    · simp [List.dropWhile_cons, hx, ih'.2]

theorem dropWhile_ne_nil_decomp {p : Char → Bool} {l : List Char}
    (h : l.dropWhile p ≠ []) :
    ∃ c r, l.dropWhile p = c :: r ∧ p c = false ∧ l = l.takeWhile p ++ c :: r := by
  cases hl : l.dropWhile p with
  | nil => exact absurd hl h
  | cons c r =>
    refine ⟨c, r, rfl, dropWhile_cons_head_false hl, ?_⟩
    rw [← hl, List.takeWhile_append_dropWhile]

/-- Success of one regex attempt, characterized exactly as the spec's
pattern: an open paren, a nonempty run of text without a comma, a comma,
text without a close paren (its optional leading whitespace being removed
by the trim), a close paren; both captures trimmed of surrounding
whitespace. -/
theorem matchOne_eq_some_iff (l : List Char) (p q : String) (rest : List Char) :
    matchOne l = some ((p, q), rest) ↔
      ∃ a b : List Char,
        l = '(' :: (a ++ ',' :: (b ++ ')' :: rest)) ∧
        a ≠ [] ∧ ',' ∉ a ∧ b ≠ [] ∧ ')' ∉ b ∧
        p = ⟨pyStripList a⟩ ∧ q = ⟨pyStripList b⟩ := by
  constructor
  · intro h
    cases l with
    | nil => exact absurd h (by simp [matchOne])
    | cons c r0 =>
      simp only [matchOne] at h
      split at h
      case isFalse => exact absurd h (by simp)
      case isTrue hc =>
        obtain ⟨hcEq, hg1, hr1, ht, hr3⟩ := hc
        simp only [Option.some.injEq, Prod.mk.injEq] at h
        obtain ⟨⟨hp, hq⟩, hrest⟩ := h
        subst hcEq
        obtain ⟨d, r2, h1, hd, hsplit1⟩ := dropWhile_ne_nil_decomp hr1
        have hd' : d = ',' := by simpa using hd
        subst hd'
        have htail : (r0.dropWhile (fun x => decide (x ≠ ','))).tail = r2 := by
          rw [h1, List.tail_cons]
        rw [htail] at ht hr3 hrest hq
        obtain ⟨e, r4, h2, he, hsplit2⟩ := dropWhile_ne_nil_decomp hr3
        have he' : e = ')' := by simpa using he
        subst he'
        have hrest' : r4 = rest := by rw [h2] at hrest; exact hrest
        subst hrest'
        refine ⟨r0.takeWhile (fun x => decide (x ≠ ',')),
          r2.takeWhile (fun x => decide (x ≠ ')')),
          ?_, hg1, ?_, ht, ?_, hp.symm, hq.symm⟩
        · rw [List.cons.injEq]
          refine ⟨rfl, ?_⟩
          conv_lhs => rw [hsplit1]
          rw [List.append_cancel_left_eq, List.cons.injEq]
          exact ⟨rfl, hsplit2⟩
        · intro hmem
          have := List.mem_takeWhile_imp hmem
          simp at this
        · intro hmem
          have := List.mem_takeWhile_imp hmem
          simp at this
  · rintro ⟨a, b, hl, ha, hna, hb, hnb, hp, hq⟩
    subst hl hp hq
    have hsp1 : ∀ x ∈ a, (fun x => decide (x ≠ ',')) x = true := by
      intro x hx
      simp only [decide_eq_true_eq]
      exact fun hEq => hna (hEq ▸ hx)
    have hsp2 : ∀ x ∈ b, (fun x => decide (x ≠ ')')) x = true := by
      intro x hx
      simp only [decide_eq_true_eq]
      exact fun hEq => hnb (hEq ▸ hx)
    obtain ⟨e1, e2⟩ := takeWhile_dropWhile_append (c := ',')
      (r := b ++ ')' :: rest) hsp1 (by simp)
    obtain ⟨e3, e4⟩ := takeWhile_dropWhile_append (c := ')')
      (r := rest) hsp2 (by simp)
    simp only [matchOne, e1, e2, List.tail_cons, e3, e4]
    simp [ha, hb]

theorem lexLt_iff : ∀ a b : List Char, lexLt a b = true ↔ List.Lex (· < ·) a b := by
  intro a
  induction a with
  | nil =>
    intro b
    cases b with
    | nil => simp [lexLt]
    | cons d ds =>
      simp only [lexLt, true_iff]
      exact List.Lex.nil
  | cons c cs ih =>
    intro b
    cases b with
    | nil => simp [lexLt]
    | cons d ds =>
      simp only [lexLt]
      by_cases h1 : c < d
      · simp only [if_pos h1, true_iff]
        exact List.Lex.rel h1
      · by_cases h2 : c = d
        · subst h2
          rw [if_neg h1, if_pos rfl, ih ds]
          exact (List.Lex.cons_iff).symm
        · rw [if_neg h1, if_neg h2]
          constructor
          · intro hF; exact absurd hF (by simp)
          · intro hL
            cases hL with
            | cons h => exact absurd rfl h2
            | rel h => exact absurd h h1

theorem strLe_iff (s t : String) : strLe s t = true ↔ s ≤ t := by
  rw [← not_lt, String.lt_iff_toList_lt,
    show (t.toList < s.toList) = List.Lex (· < ·) t.toList s.toList from rfl,
    ← lexLt_iff]
  simp [strLe, String.toList]

theorem insertSortedB_eq_orderedInsert (x : String) :
    ∀ l : List String, insertSortedB strLe x l = List.orderedInsert (· ≤ ·) x l := by
  intro l
  induction l with
  | nil => rfl
  | cons y ys ih =>
    simp only [insertSortedB, List.orderedInsert]
    by_cases h : x ≤ y
    · rw [if_pos ((strLe_iff x y).mpr h), if_pos h]
    · rw [if_neg (fun hc => h ((strLe_iff x y).mp hc)), if_neg h, ih]

theorem sortB_eq_insertionSort (l : List String) :
    sortB strLe l = List.insertionSort (· ≤ ·) l := by
  induction l with
  | nil => rfl
  | cons a l ih =>
    show insertSortedB strLe a (sortB strLe l) = _
    rw [ih, insertSortedB_eq_orderedInsert]
    rfl

theorem pyReplaceF_fuel_irrel :
    ∀ (fuel fuel' : Nat) (s pat rep : List Char), s.length ≤ fuel →
      s.length ≤ fuel' → pyReplaceF fuel s pat rep = pyReplaceF fuel' s pat rep := by
  intro fuel
  induction fuel with
  | zero =>
    intro fuel' s pat rep hs _
    have : s = [] := List.length_eq_zero.mp (Nat.le_zero.mp hs)
    subst this
    cases fuel' <;> cases pat <;> rfl
  | succ f ih =>
    intro fuel' s pat rep hs hs'
    cases pat with
    | nil => cases fuel' <;> cases s <;> rfl
    | cons p ps =>
      cases s with
      | nil => cases fuel' <;> rfl
      | cons c cs =>
        cases fuel' with
        | zero => exact absurd hs' (by simp)
        | succ f' =>
          simp only [pyReplaceF]
          simp only [List.length_cons] at hs hs'
          by_cases hpre : (p :: ps).isPrefixOf (c :: cs)
          · rw [if_pos hpre, if_pos hpre,
              ih f' (cs.drop ps.length) (p :: ps) rep
                (by simp only [List.length_drop]; omega)
                (by simp only [List.length_drop]; omega)]
          · rw [if_neg hpre, if_neg hpre,
              ih f' cs (p :: ps) rep (by omega) (by omega)]

theorem pyReplaceList_nil {pat rep : List Char} (h : pat ≠ []) :
    pyReplaceList [] pat rep = [] := by
  cases pat with
  | nil => exact absurd rfl h
  | cons p ps => rfl

theorem pyReplaceList_cons_pos {c : Char} {cs pat rep : List Char}
    (hp : pat ≠ []) (hpre : pat.isPrefixOf (c :: cs) = true) :
    pyReplaceList (c :: cs) pat rep =
      rep ++ pyReplaceList (cs.drop (pat.length - 1)) pat rep := by
  cases pat with
  | nil => exact absurd rfl hp
  | cons p ps =>
    unfold pyReplaceList
    simp only [List.length_cons, pyReplaceF, if_pos hpre]
    congr 1
    exact pyReplaceF_fuel_irrel cs.length (cs.drop ps.length).length
      (cs.drop ps.length) (p :: ps) rep
      (by simp only [List.length_drop]; omega) (le_refl _)

theorem pyReplaceList_cons_neg {c : Char} {cs pat rep : List Char}
    (hp : pat ≠ []) (hpre : pat.isPrefixOf (c :: cs) = false) :
    pyReplaceList (c :: cs) pat rep = c :: pyReplaceList cs pat rep := by
  cases pat with
  | nil => exact absurd rfl hp
  | cons p ps =>
    unfold pyReplaceList
    simp only [List.length_cons, pyReplaceF]
    rw [if_neg (by simp [hpre])]

theorem scanPairs_eq_nil_of_no_match :
    ∀ l : List Char, (∀ i, i < l.length → matchOne (l.drop i) = none) →
      scanPairs l = [] := by
  intro l
  induction l with
  | nil => intro _; rfl
  | cons c cs ih =>
    intro h
    have h0 : matchOne (c :: cs) = none := by
      have := h 0 (by simp)
      simpa using this
    rw [scanPairs_cons_none h0]
    refine ih (fun i hi => ?_)
    have := h (i + 1) (by simpa using Nat.succ_lt_succ hi)
    simpa [List.drop_succ_cons] using this

theorem mem_dictInsert {m : List (String × String)} {k0 v0 k v : String}
    (h : (k, v) ∈ dictInsert m k0 v0) :
    (k, v) ∈ m ∨ (k = k0 ∧ v = v0) := by
  induction m with
  | nil => simp only [dictInsert, List.mem_singleton, Prod.mk.injEq] at h; tauto
  | cons kv rest ih =>
    obtain ⟨k', v'⟩ := kv
    simp only [dictInsert] at h
    by_cases hk : k' = k0
    · rw [if_pos hk] at h
      rcases List.mem_cons.mp h with h1 | h1
      · simp only [Prod.mk.injEq] at h1
        right
        exact ⟨h1.1.trans hk, h1.2⟩
      · left; exact List.mem_cons_of_mem _ h1
    · rw [if_neg hk] at h
      rcases List.mem_cons.mp h with h1 | h1
      · left; exact List.mem_cons.mpr (Or.inl h1)
      · rcases ih h1 with h2 | h2
        · left; exact List.mem_cons_of_mem _ h2
        · right; exact h2

/-- Each entry of the accumulated similar-phrase dictionary comes from a
judged-similar index pair `i < j`, with the longer entity as key and the
shorter as value (ties: the earlier entity is the value). -/
theorem mem_findSimilarCore {sim : String → String → Bool}
    {entities : List String} {k v : String}
    (h : (k, v) ∈ findSimilarCore sim entities) :
    ∃ x y, (x, y) ∈ allPairs entities ∧ sim x y = true ∧
      ((x.length ≤ y.length ∧ k = y ∧ v = x) ∨
       (¬ x.length ≤ y.length ∧ k = x ∧ v = y)) := by
  have main : ∀ (ps : List (String × String)) (m : List (String × String)),
      (k, v) ∈ ps.foldl
        (fun m pr =>
          if sim pr.1 pr.2 then
            if pr.1.length ≤ pr.2.length then dictInsert m pr.2 pr.1
            else dictInsert m pr.1 pr.2
          else m) m →
      (k, v) ∈ m ∨ ∃ x y, (x, y) ∈ ps ∧ sim x y = true ∧
        ((x.length ≤ y.length ∧ k = y ∧ v = x) ∨
         (¬ x.length ≤ y.length ∧ k = x ∧ v = y)) := by
    intro ps
    induction ps with
    | nil => intro m hm; exact Or.inl hm
    | cons pr ps ih =>
      intro m hm
      simp only [List.foldl_cons] at hm
      rcases ih _ hm with h1 | h1
      · by_cases hs : sim pr.1 pr.2
        · rw [if_pos hs] at h1
          by_cases hl : pr.1.length ≤ pr.2.length
          · rw [if_pos hl] at h1
            rcases mem_dictInsert h1 with h2 | h2
            · exact Or.inl h2
            · exact Or.inr ⟨pr.1, pr.2, by simp, hs, Or.inl ⟨hl, h2.1, h2.2⟩⟩
          · rw [if_neg hl] at h1
            rcases mem_dictInsert h1 with h2 | h2
            · exact Or.inl h2
            · exact Or.inr ⟨pr.1, pr.2, by simp, hs, Or.inr ⟨hl, h2.1, h2.2⟩⟩
        · rw [if_neg hs] at h1
          exact Or.inl h1
      · obtain ⟨x, y, hxy, rest⟩ := h1
        exact Or.inr ⟨x, y, List.mem_cons_of_mem _ hxy, rest⟩
  have := main (allPairs entities) [] h
  simpa using this

theorem mem_allPairs_ne {l : List String} {x y : String}
    (hnd : l.Nodup) (h : (x, y) ∈ allPairs l) : x ≠ y := by
  induction l with
  | nil => simp [allPairs] at h
  | cons hd tl ih =>
    simp only [allPairs, List.mem_append, List.mem_map] at h
    rcases h with h1 | h1
    · obtain ⟨z, hz, hzeq⟩ := h1
      cases hzeq
      intro hEq
      exact (List.nodup_cons.mp hnd).1 (hEq ▸ hz)
    · exact ih (List.nodup_cons.mp hnd).2 h1

/-- Claim C1: entity-pair extraction returns exactly the ordered
left-to-right sequence of pairs matching the pattern "open paren, text
without comma, comma, optional whitespace, text without close paren, close
paren", each side trimmed of surrounding whitespace (third conjunct: a
single attempt succeeds exactly on such a decomposition); a string with zero
well-formed groups yields the empty sequence (second conjunct); the input
"(Gene1, Protein2) and (Protein2, Pathway3)" yields exactly
[("Gene1","Protein2"), ("Protein2","Pathway3")] (first conjunct).
Extraction is a total function, so no error is ever raised. -/
theorem C1_entity_pair_extraction :
    (extractPairs "(Gene1, Protein2) and (Protein2, Pathway3)" =
      [("Gene1", "Protein2"), ("Protein2", "Pathway3")]) ∧
    (∀ l : List Char, (∀ i, i < l.length → matchOne (l.drop i) = none) →
      scanPairs l = []) ∧
    (∀ (l : List Char) (p q : String) (rest : List Char),
      matchOne l = some ((p, q), rest) ↔
        ∃ a b : List Char,
          l = '(' :: (a ++ ',' :: (b ++ ')' :: rest)) ∧
          a ≠ [] ∧ ',' ∉ a ∧ b ≠ [] ∧ ')' ∉ b ∧
          p = ⟨pyStripList a⟩ ∧ q = ⟨pyStripList b⟩) :=
  ⟨by decide, scanPairs_eq_nil_of_no_match, matchOne_eq_some_iff⟩

/-- Witness for C1 at concrete inputs: "no match here!" contains no
well-formed group and extraction yields the empty list; a successful
attempt on "(a, b)x" decomposes as the pattern demands. -/
theorem C1_entity_pair_extraction_witness :
    scanPairs "no match here!".data = [] ∧
    (∃ a b : List Char,
      "(a, b)x".data = '(' :: (a ++ ',' :: (b ++ ')' :: "x".data)) ∧
      a ≠ [] ∧ ',' ∉ a ∧ b ≠ [] ∧ ')' ∉ b ∧
      ("a" : String) = ⟨pyStripList a⟩ ∧ ("b" : String) = ⟨pyStripList b⟩) :=
  ⟨C1_entity_pair_extraction.2.1 "no match here!".data (by decide),
   (C1_entity_pair_extraction.2.2 "(a, b)x".data "a" "b" "x".data).mp (by decide)⟩

/-- Claim C3: in both deduplication modes, every map entry sends a duplicate
to a canonical string no longer in character count; for equal-length similar
pairs the choice is deterministic — the earlier entity of the pair becomes
canonical (third conjunct pins the tie-break on a two-element list, for any
similarity oracle, hence for both modes). -/
theorem C3_canonical_no_longer_than_duplicate :
    (∀ (threshold : ℚ) (entities : List String) (k v : String),
      (k, v) ∈ findSimilarWithStrings threshold entities → v.length ≤ k.length) ∧
    (∀ (sim : String → String → Bool) (entities : List String) (k v : String),
      (k, v) ∈ findSimilarWithEmbeddings sim entities → v.length ≤ k.length) ∧
    (∀ (sim : String → String → Bool) (a b : String),
      sim a b = true → a.length = b.length →
      findSimilarWithEmbeddings sim [a, b] = [(b, a)]) := by
  refine ⟨?_, ?_, ?_⟩
  · intro thr entities k v h
    obtain ⟨x, y, -, -, hcase⟩ := mem_findSimilarCore h
    rcases hcase with ⟨h1, rfl, rfl⟩ | ⟨h1, rfl, rfl⟩
    · exact h1
    · omega
  · intro sim entities k v h
    obtain ⟨x, y, -, -, hcase⟩ := mem_findSimilarCore h
    rcases hcase with ⟨h1, rfl, rfl⟩ | ⟨h1, rfl, rfl⟩
    · exact h1
    · omega
  · intro sim a b hs hl
    simp [findSimilarWithEmbeddings, findSimilarCore, allPairs, hs,
      Nat.le_of_eq hl, dictInsert]

/-- Witness for C3 at concrete inputs: in string mode on ["ab","abc"] the
entry ("abc","ab") satisfies the length bound, and an equal-length similar
pair ["aa","bb"] maps the later entity to the earlier one. -/
theorem C3_canonical_no_longer_than_duplicate_witness :
    ("ab" : String).length ≤ ("abc" : String).length ∧
    findSimilarWithEmbeddings (fun _ _ => true) ["aa", "bb"] = [("bb", "aa")] :=
  ⟨C3_canonical_no_longer_than_duplicate.1 (4/5) ["ab", "abc"] "abc" "ab"
    (by decide),
   C3_canonical_no_longer_than_duplicate.2.2 (fun _ _ => true) "aa" "bb"
    rfl (by decide)⟩

/-- Claim C4: the canonicalization map is not transitively closed — on the
entity list ["ab", "abc", "abcd"] (threshold 0.8) the string-fallback
deduplication produces exactly the chain abcd → abc and abc → ab, and no
entry abcd → ab. -/
theorem C4_transitive_chain_unresolved :
    findSimilarWithStrings (4/5) ["ab", "abc", "abcd"] =
      [("abc", "ab"), ("abcd", "abc")] ∧
    ("abcd", "abc") ∈ findSimilarWithStrings (4/5) ["ab", "abc", "abcd"] ∧
    ("abc", "ab") ∈ findSimilarWithStrings (4/5) ["ab", "abc", "abcd"] ∧
    ("abcd", "ab") ∉ findSimilarWithStrings (4/5) ["ab", "abc", "abcd"] := by
  refine ⟨by decide, by decide, by decide, by decide⟩

/-- Counterexample to C9 as stated "for every input entity list": an input
list containing the same entity twice makes the string-fallback map send
"a" to itself (a string is a substring of itself, so the duplicated pair is
judged similar and, having equal lengths, maps the second occurrence to the
first — the same string). -/
theorem C9_self_map_counterexample :
    findSimilarWithStrings (4/5) ["a", "a"] = [("a", "a")] := by decide

/-- Claim C9 (amended): for every duplicate-free input entity list — which
is what `extract_entities` always supplies — no entry of either
deduplication map sends an entity to itself. -/
theorem C9_no_self_map_on_nodup_input :
    (∀ (threshold : ℚ) (entities : List String) (k v : String),
      entities.Nodup → (k, v) ∈ findSimilarWithStrings threshold entities →
      k ≠ v) ∧
    (∀ (sim : String → String → Bool) (entities : List String) (k v : String),
      entities.Nodup → (k, v) ∈ findSimilarWithEmbeddings sim entities →
      k ≠ v) := by
  constructor
  · intro thr entities k v hnd h
    obtain ⟨x, y, hxy, -, hcase⟩ := mem_findSimilarCore h
    have hne := mem_allPairs_ne hnd hxy
    rcases hcase with ⟨-, rfl, rfl⟩ | ⟨-, rfl, rfl⟩
    · exact hne.symm
    · exact hne
  · intro sim entities k v hnd h
    obtain ⟨x, y, hxy, -, hcase⟩ := mem_findSimilarCore h
    have hne := mem_allPairs_ne hnd hxy
    rcases hcase with ⟨-, rfl, rfl⟩ | ⟨-, rfl, rfl⟩
    · exact hne.symm
    · exact hne

/-- Witness for C9 (amended) at a concrete input: on the duplicate-free
list ["ab", "abc"] the produced entry has distinct key and value. -/
theorem C9_no_self_map_on_nodup_input_witness :
    ("abc" : String) ≠ "ab" :=
  C9_no_self_map_on_nodup_input.1 (4/5) ["ab", "abc"] "abc" "ab"
    (by decide) (by decide)

theorem dropWhile_self (p : Char → Bool) (l : List Char) :
    (l.dropWhile p).dropWhile p = l.dropWhile p := by
  cases h : l.dropWhile p with
  | nil => rfl
  | cons c r => exact List.dropWhile_cons_of_neg (by simp [dropWhile_cons_head_false h])

theorem pyStripList_no_leading (l : List Char) :
    (pyStripList l).dropWhile isPySpace = pyStripList l := by
  unfold pyStripList
  cases hy : ((l.dropWhile isPySpace).reverse.dropWhile isPySpace).reverse with
  | nil => rfl
  | cons c y' =>
    rw [← hy]
    have hpre : ((l.dropWhile isPySpace).reverse.dropWhile isPySpace).reverse <+:
        l.dropWhile isPySpace := by
      have hsuf : (l.dropWhile isPySpace).reverse.dropWhile isPySpace <:+
          (l.dropWhile isPySpace).reverse := List.dropWhile_suffix _
      simpa using hsuf.reverse
    obtain ⟨t, ht⟩ := hpre
    rw [hy] at ht
    have hc : isPySpace c = false := by
      refine dropWhile_cons_head_false (l := l) (r := y' ++ t) ?_
      rw [← ht, List.cons_append]
    rw [hy]
    exact List.dropWhile_cons_of_neg (by simp [hc])

theorem pyStripList_idem (l : List Char) :
    pyStripList (pyStripList l) = pyStripList l := by
  show (((pyStripList l).dropWhile isPySpace).reverse.dropWhile isPySpace).reverse =
    pyStripList l
  rw [pyStripList_no_leading]
  conv_lhs => rw [show pyStripList l =
    ((l.dropWhile isPySpace).reverse.dropWhile isPySpace).reverse from rfl,
    List.reverse_reverse, dropWhile_self]
  rfl

theorem matchOne_stripped {l : List Char} {p q : String} {rest : List Char}
    (h : matchOne l = some ((p, q), rest)) :
    ∃ a b, p = (⟨pyStripList a⟩ : String) ∧ q = (⟨pyStripList b⟩ : String) := by
  rcases (matchOne_eq_some_iff l p q rest).mp h with ⟨a, b, -, -, -, -, -, hp, hq⟩
  exact ⟨a, b, hp, hq⟩

/-- Every pair emitted by the scan is a pair of stripped strings. -/
theorem scanPairsF_stripped :
    ∀ (fuel : Nat) (l : List Char) (pr : String × String),
      pr ∈ scanPairsF fuel l →
      ∃ a b, pr.1 = (⟨pyStripList a⟩ : String) ∧ pr.2 = (⟨pyStripList b⟩ : String) := by
  intro fuel
  induction fuel with
  | zero =>
    intro l pr h
    cases l <;> simp [scanPairsF] at h
  | succ f ih =>
    intro l pr h
    cases l with
    | nil => simp [scanPairsF] at h
    | cons c cs =>
      simp only [scanPairsF] at h
      cases hm : matchOne (c :: cs) with
      | some qr =>
        obtain ⟨⟨q1, q2⟩, rest⟩ := qr
        rw [hm] at h
        rcases List.mem_cons.mp h with h1 | h1
        · subst h1
          exact matchOne_stripped hm
        · exact ih rest pr h1
      | none =>
        rw [hm] at h
        exact ih cs pr h

/-- Claim C10: `extract_entities` returns a duplicate-free,
lexicographically sorted list of non-empty, whitespace-trimmed entity
strings, and its value is invariant under permuting the rows of the table,
so the pairwise deduplication consuming it iterates in a deterministic
order independent of row order. -/
theorem C10_extract_entities_sorted_nodup :
    (∀ rows : List DRow, (extract_entities rows).Sorted (· ≤ ·)) ∧
    (∀ rows : List DRow, (extract_entities rows).Nodup) ∧
    (∀ (rows : List DRow) (e : String), e ∈ extract_entities rows →
      e ≠ "" ∧ pyStrip e = e) ∧
    (∀ rows rows' : List DRow, rows.Perm rows' →
      extract_entities rows = extract_entities rows') := by
  refine ⟨?_, ?_, ?_, ?_⟩
  · intro rows
    rw [extract_entities, sortB_eq_insertionSort]
    exact List.sorted_insertionSort _ _
  · intro rows
    rw [extract_entities, sortB_eq_insertionSort,
      (List.perm_insertionSort _ _).nodup_iff]
    exact List.nodup_dedup _
  · intro rows e he
    rw [extract_entities, sortB_eq_insertionSort,
      (List.perm_insertionSort _ _).mem_iff,
      List.mem_dedup, List.mem_filter] at he
    obtain ⟨hmem, hne⟩ := he
    refine ⟨by simpa using hne, ?_⟩
    rw [List.mem_flatMap] at hmem
    obtain ⟨r, -, hr⟩ := hmem
    rw [List.mem_flatMap] at hr
    obtain ⟨pr, hpr, hepr⟩ := hr
    obtain ⟨a, b, ha, hb⟩ := scanPairsF_stripped _ _ pr hpr
    have : e = pr.1 ∨ e = pr.2 := by simpa using hepr
    rcases this with rfl | rfl
    · rw [ha, pyStrip]
      simp [pyStripList_idem]
    · rw [hb, pyStrip]
      simp [pyStripList_idem]
  · intro rows rows' hperm
    have hp : (((rows.flatMap (fun r => (extractPairs r.answer).flatMap
          (fun pr => [pr.1, pr.2]))).filter (fun e => e ≠ "")).dedup).Perm
        (((rows'.flatMap (fun r => (extractPairs r.answer).flatMap
          (fun pr => [pr.1, pr.2]))).filter (fun e => e ≠ "")).dedup) :=
      ((hperm.flatMap_right _).filter _).dedup
    rw [extract_entities, extract_entities, sortB_eq_insertionSort,
      sortB_eq_insertionSort]
    exact List.eq_of_perm_of_sorted
      (((List.perm_insertionSort _ _).trans hp).trans
        (List.perm_insertionSort _ _).symm)
      (List.sorted_insertionSort _ _) (List.sorted_insertionSort _ _)

/-- Witness for C10 at concrete inputs: the extracted entity list of a
two-row table, and its invariance under swapping the two rows. -/
theorem C10_extract_entities_sorted_nodup_witness :
    extract_entities [⟨"t1", none, "(b, a)"⟩, ⟨"t2", none, "(a, c)"⟩] =
      extract_entities [⟨"t2", none, "(a, c)"⟩, ⟨"t1", none, "(b, a)"⟩] ∧
    (("a" : String) ≠ "" ∧ pyStrip "a" = "a") :=
  ⟨C10_extract_entities_sorted_nodup.2.2.2 _ _ (by decide),
   C10_extract_entities_sorted_nodup.2.2.1
     [⟨"t1", none, "(b, a)"⟩, ⟨"t2", none, "(a, c)"⟩] "a" (by decide)⟩

theorem all_not_eq_not_any (l : List String) (f : String → Bool) :
    l.all (fun x => !f x) = !l.any f := by
  induction l with
  | nil => rfl
  | cons x xs ih => simp [List.all_cons, List.any_cons, ih]

theorem acceptEntities_eq_not_rejectSpec (excl : List String) (a b : String) :
    acceptEntities excl a b = !rejectSpec excl a b := by
  simp only [acceptEntities, rejectSpec, ne_eq, decide_not, all_not_eq_not_any]
  generalize decide (a = "") = A
  generalize decide (b = "") = B
  generalize excl.any (fun exc => containsSubstr a exc) = P
  generalize excl.any (fun exc => containsSubstr b exc) = Q
  revert A B P Q
  decide

theorem foldl_rows_flatMap (rows : List DRow)
    (step : NXGraph → String × String × String → NXGraph) (G0 : NXGraph) :
    rows.foldl (fun G r => (rowTriples r).foldl step G) G0 =
      (rows.flatMap rowTriples).foldl step G0 := by
  induction rows generalizing G0 with
  | nil => rfl
  | cons r rows ih =>
    simp only [List.foldl_cons, List.flatMap_cons, List.foldl_append]
    exact ih _

theorem foldl_guard_filter (excl : List String)
    (ts : List (String × String × String)) (G0 : NXGraph) :
    ts.foldl (fun G t =>
        if acceptEntities excl t.1 t.2.1 then addEdge G t.1 t.2.1 else G) G0 =
      (ts.filter (fun t => acceptEntities excl t.1 t.2.1)).foldl
        (fun G t => addEdge G t.1 t.2.1) G0 := by
  induction ts generalizing G0 with
  | nil => rfl
  | cons t ts ih =>
    simp only [List.foldl_cons, List.filter_cons]
    by_cases h : acceptEntities excl t.1 t.2.1
    · rw [if_pos h, if_pos h, List.foldl_cons]
      exact ih _
    · rw [if_neg h, if_neg (by simpa using h)]
      exact ih _

/-- Claim C5: during filtered graph construction a triple is rejected — no
nodes or edge added for it — if and only if either entity contains an
excluded string as a case-sensitive substring or either entity is empty
(first conjunct: the code's acceptance test is the negation of that
rejection condition; second conjunct: the built graph is exactly the graph
built from the triples passing the test); with exclusion list ["Pathway"]
every triple where either entity contains "Pathway" is dropped (third
conjunct). -/
theorem C5_exclusion_filtering :
    (∀ (excl : List String) (a b : String),
      acceptEntities excl a b = false ↔
        (a = "" ∨ b = "" ∨ (∃ exc ∈ excl, containsSubstr a exc = true) ∨
          (∃ exc ∈ excl, containsSubstr b exc = true))) ∧
    (∀ (rows : List DRow) (excl : List String),
      buildFilteredGraph rows excl =
        buildGraphOfTriples ((rows.flatMap rowTriples).filter
          (fun t => !rejectSpec excl t.1 t.2.1))) ∧
    (∀ a b : String,
      containsSubstr a "Pathway" = true ∨ containsSubstr b "Pathway" = true →
      acceptEntities ["Pathway"] a b = false) := by
  have key : ∀ (excl : List String) (a b : String),
      acceptEntities excl a b = false ↔
        (a = "" ∨ b = "" ∨ (∃ exc ∈ excl, containsSubstr a exc = true) ∨
          (∃ exc ∈ excl, containsSubstr b exc = true)) := by
    intro excl a b
    rw [acceptEntities_eq_not_rejectSpec]
    simp only [rejectSpec, Bool.not_eq_false', Bool.or_eq_true,
      List.any_eq_true, decide_eq_true_eq]
    constructor
    · rintro (((hP | hQ) | hA) | hB)
      · exact Or.inr (Or.inr (Or.inl hP))
      · exact Or.inr (Or.inr (Or.inr hQ))
      · exact Or.inl hA
      · exact Or.inr (Or.inl hB)
    · rintro (hA | hB | hP | hQ)
      · exact Or.inl (Or.inr hA)
      · exact Or.inr hB
      · exact Or.inl (Or.inl (Or.inl hP))
      · exact Or.inl (Or.inl (Or.inr hQ))
  refine ⟨key, ?_, ?_⟩
  · intro rows excl
    rw [buildFilteredGraph, buildGraphOfTriples, foldl_rows_flatMap,
      foldl_guard_filter]
    congr 1
    apply List.filter_congr
    intro t _
    rw [acceptEntities_eq_not_rejectSpec]
  · intro a b h
    rw [key]
    rcases h with ha | hb
    · exact Or.inr (Or.inr (Or.inl ⟨"Pathway", by simp, ha⟩))
    · exact Or.inr (Or.inr (Or.inr ⟨"Pathway", by simp, hb⟩))

/-- Witness for C5 at concrete inputs: with exclusion list ["Pathway"] the
triple ("Gene1", "Pathway2") is rejected, and the one-row graph keeps only
the pair without "Pathway". -/
theorem C5_exclusion_filtering_witness :
    acceptEntities ["Pathway"] "Gene1" "Pathway2" = false ∧
    buildFilteredGraph [⟨"src", none, "(Gene1, Pathway2) and (Gene1, Gene3)"⟩]
        ["Pathway"] =
      buildGraphOfTriples
        ((([⟨"src", none, "(Gene1, Pathway2) and (Gene1, Gene3)"⟩] :
          List DRow).flatMap rowTriples).filter
            (fun t => !rejectSpec ["Pathway"] t.1 t.2.1)) :=
  ⟨C5_exclusion_filtering.2.2 "Gene1" "Pathway2" (Or.inr (by decide)),
   C5_exclusion_filtering.2.1 _ ["Pathway"]⟩

theorem expandStep_empty (G : NXGraph) : expandStep G ∅ = ∅ := by
  simp [expandStep]

theorem iterate_expandStep_empty (G : NXGraph) (d : Nat) :
    (expandStep G)^[d] ∅ = ∅ :=
  Function.iterate_fixed (expandStep_empty G) d

theorem mem_seedNodes_sub {G : NXGraph} {kw n : String}
    (h : n ∈ seedNodes G kw) : n ∈ G.nodes := by
  rw [seedNodes, List.mem_toFinset, List.mem_filter] at h
  exact h.1

theorem searchNetwork_mem_nodes (G : NXGraph) (kw : String) (d : Nat)
    (n : String) :
    n ∈ (searchNetwork G kw d).nodes ↔
      n ∈ G.nodes ∧ n ∈ (expandStep G)^[d] (seedNodes G kw) := by
  unfold searchNetwork
  by_cases hs : seedNodes G kw = ∅
  · rw [if_pos hs, hs, iterate_expandStep_empty]
    simp
  · rw [if_neg hs]
    simp [inducedSubgraph, List.mem_filter]

theorem searchNetwork_mem_edges (G : NXGraph) (kw : String) (d : Nat)
    (e : String × String) :
    e ∈ (searchNetwork G kw d).edges ↔
      e ∈ G.edges ∧ e.1 ∈ (expandStep G)^[d] (seedNodes G kw) ∧
        e.2 ∈ (expandStep G)^[d] (seedNodes G kw) := by
  unfold searchNetwork
  by_cases hs : seedNodes G kw = ∅
  · rw [if_pos hs, hs, iterate_expandStep_empty]
    simp
  · rw [if_neg hs]
    simp [inducedSubgraph, List.mem_filter]

/-- Claim C2: the keyword-centered subgraph search returns the node-induced
subgraph on the set obtained by expanding the case-insensitive keyword seed
set `depth` times with neighbor sets (first two conjuncts characterize its
nodes and edges; the node set is exactly the expansion iterate, intersected
with the parent's nodes, of which it is a subset); the result contains every
parent-graph edge between included nodes (third conjunct); depth 0 returns
exactly the seed nodes (fourth conjunct); an empty seed set returns an empty
graph rather than raising (fifth conjunct); and on the path graph A–B–C
with keyword "A" and depth 1 the result is exactly nodes {A, B} with the
single edge (A, B), without C (sixth conjunct). -/
theorem C2_keyword_subgraph_search :
    (∀ (G : NXGraph) (kw : String) (d : Nat) (n : String),
      n ∈ (searchNetwork G kw d).nodes ↔
        n ∈ G.nodes ∧ n ∈ (expandStep G)^[d] (seedNodes G kw)) ∧
    (∀ (G : NXGraph) (kw : String) (d : Nat) (e : String × String),
      e ∈ (searchNetwork G kw d).edges ↔
        e ∈ G.edges ∧ e.1 ∈ (expandStep G)^[d] (seedNodes G kw) ∧
          e.2 ∈ (expandStep G)^[d] (seedNodes G kw)) ∧
    (∀ (G : NXGraph) (kw : String) (d : Nat) (a b : String),
      hasEdge G a b = true → a ∈ (searchNetwork G kw d).nodes →
      b ∈ (searchNetwork G kw d).nodes →
      hasEdge (searchNetwork G kw d) a b = true) ∧
    (∀ (G : NXGraph) (kw : String) (n : String),
      n ∈ (searchNetwork G kw 0).nodes ↔ n ∈ seedNodes G kw) ∧
    (∀ (G : NXGraph) (kw : String), seedNodes G kw = ∅ →
      ∀ d : Nat, searchNetwork G kw d = ⟨[], []⟩) ∧
    (searchNetwork (buildGraphOfTriples [("A", "B", "tA"), ("B", "C", "tB")])
        "A" 1 = ⟨["A", "B"], [("A", "B")]⟩) := by
  refine ⟨searchNetwork_mem_nodes, searchNetwork_mem_edges, ?_, ?_, ?_, by decide⟩
  · intro G kw d a b he ha hb
    rw [searchNetwork_mem_nodes] at ha hb
    rw [hasEdge, Bool.or_eq_true, decide_eq_true_eq, decide_eq_true_eq] at he ⊢
    rcases he with he | he
    · left
      rw [searchNetwork_mem_edges]
      exact ⟨he, ha.2, hb.2⟩
    · right
      rw [searchNetwork_mem_edges]
      exact ⟨he, hb.2, ha.2⟩
  · intro G kw n
    rw [searchNetwork_mem_nodes]
    simp only [Function.iterate_zero, id_eq]
    exact ⟨fun h => h.2, fun h => ⟨mem_seedNodes_sub h, h⟩⟩
  · intro G kw hs d
    unfold searchNetwork
    rw [if_pos hs]

/-- Witness for C2 at concrete inputs: on the path graph A–B–C with
keyword "A" and depth 1, node "B" is included, edge ("A","B") is present
through edge-completeness, and an unmatched keyword yields the empty
graph. -/
theorem C2_keyword_subgraph_search_witness :
    ("B" ∈ (searchNetwork
        (buildGraphOfTriples [("A", "B", "tA"), ("B", "C", "tB")]) "A" 1).nodes ↔
      "B" ∈ (buildGraphOfTriples [("A", "B", "tA"), ("B", "C", "tB")]).nodes ∧
      "B" ∈ (expandStep (buildGraphOfTriples [("A", "B", "tA"), ("B", "C", "tB")]))^[1]
        (seedNodes (buildGraphOfTriples [("A", "B", "tA"), ("B", "C", "tB")]) "A")) ∧
    hasEdge (searchNetwork
      (buildGraphOfTriples [("A", "B", "tA"), ("B", "C", "tB")]) "A" 1) "A" "B" = true ∧
    searchNetwork (buildGraphOfTriples [("A", "B", "tA"), ("B", "C", "tB")]) "Z" 2 =
      ⟨[], []⟩ :=
  ⟨C2_keyword_subgraph_search.1 _ "A" 1 "B",
   C2_keyword_subgraph_search.2.2.1 _ "A" 1 "A" "B" (by decide) (by decide) (by decide),
   C2_keyword_subgraph_search.2.2.2.2.1 _ "Z" (by decide) 2⟩

theorem pyReplaceList_no_occurrence :
    ∀ (s pat rep : List Char), pat ≠ [] → containsSubstrList s pat = false →
      pyReplaceList s pat rep = s := by
  intro s
  induction s with
  | nil => intro pat rep hp _; exact pyReplaceList_nil hp
  | cons c cs ih =>
    intro pat rep hp hc
    simp only [containsSubstrList, Bool.or_eq_false_iff] at hc
    rw [pyReplaceList_cons_neg hp hc.1, ih pat rep hp hc.2]

/-- Claim C8: applying the canonicalization map rewrites the extraction
column by literal substring replacement — with an empty map the table is
returned unchanged (first conjunct); with a non-empty map every cell is the
input cell with each (duplicate, canonical) entry applied in order as
`cell.replace(duplicate, canonical)` (second conjunct); a cell without an
occurrence of the duplicate is unchanged (third conjunct); a duplicate
occurring anywhere — several times, or inside a longer unrelated word like
"scrabble" — is replaced at each occurrence (fourth conjunct). -/
theorem C8_substitution_literal_replacement :
    (∀ rows : List DRow, substitute_similar_entities [] rows = rows) ∧
    (∀ (m : List (String × String)) (rows : List DRow), m ≠ [] →
      substitute_similar_entities m rows =
        rows.map (fun r =>
          { r with answer :=
              m.foldl (fun cell pr => pyReplace cell pr.1 pr.2) r.answer })) ∧
    (∀ s pat rep : String, pat ≠ "" → containsSubstr s pat = false →
      pyReplace s pat rep = s) ∧
    (pyReplace "scrabble" "ab" "X" = "scrXble" ∧
     pyReplace "abxab" "ab" "Y" = "YxY" ∧
     substitute_similar_entities [("ab", "X")] [⟨"t", none, "scrabble"⟩] =
       [⟨"t", none, "scrXble"⟩]) := by
  refine ⟨?_, ?_, ?_, by decide, by decide, by decide⟩
  · intro rows
    simp [substitute_similar_entities]
  · intro m rows hm
    rw [substitute_similar_entities, if_neg hm]
  · intro s pat rep hp hc
    apply String.ext
    show pyReplaceList s.data pat.data rep.data = s.data
    refine pyReplaceList_no_occurrence _ _ _ ?_ hc
    intro hd
    exact hp (String.ext hd)

/-- Witness for C8 at concrete inputs: a one-row table rewritten by a
non-empty map equals the per-row fold of replacements, and a cell without
the duplicate substring is unchanged. -/
theorem C8_substitution_literal_replacement_witness :
    substitute_similar_entities [("ab", "Y")] [⟨"t", none, "abxab"⟩] =
      [(⟨"t", none, "abxab"⟩ : DRow)].map (fun r =>
        { r with answer :=
            ([("ab", "Y")].foldl
              (fun cell pr => pyReplace cell pr.1 pr.2) r.answer) }) ∧
    pyReplace "hello" "zz" "Q" = "hello" :=
  ⟨C8_substitution_literal_replacement.2.1 [("ab", "Y")] _ (by decide),
   C8_substitution_literal_replacement.2.2.1 "hello" "zz" "Q"
     (by decide) (by decide)⟩

theorem batchAnalyzeGo_length (oracle : String → Except String String)
    (start : Nat) : ∀ (i : Nat) (rows : List DRow),
      (batchAnalyzeGo oracle start i rows).length = rows.length := by
  intro i rows
  induction rows generalizing i with
  | nil => rfl
  | cons r rs ih => simp [batchAnalyzeGo, ih]

theorem batchAnalyzeGo_get (oracle : String → Except String String)
    (start : Nat) :
    ∀ (rows : List DRow) (i j : Nat) (h : j < rows.length)
      (h' : j < (batchAnalyzeGo oracle start i rows).length),
      (batchAnalyzeGo oracle start i rows).get ⟨j, h'⟩ =
        if start ≤ i + j then
          { rows.get ⟨j, h⟩ with
            answer := analyzeAbstract oracle (rows.get ⟨j, h⟩).abstract }
        else rows.get ⟨j, h⟩ := by
  intro rows
  induction rows with
  | nil => intro i j h; exact absurd h (by simp)
  | cons r rs ih =>
    intro i j h h'
    cases j with
    | zero => simp [batchAnalyzeGo]
    | succ j =>
      have hj : j < rs.length := by simpa using Nat.lt_of_succ_lt_succ h
      have hj' : j < (batchAnalyzeGo oracle start (i + 1) rs).length := by
        rw [batchAnalyzeGo_length]; exact hj
      show (batchAnalyzeGo oracle start (i + 1) rs).get ⟨j, hj'⟩ = _
      rw [ih (i + 1) j hj hj']
      simp only [show i + 1 + j = i + (j + 1) from by omega]
      rfl

/-- Counterexample to C6 as stated: the claim's "empty string exactly on
rows whose call failed or whose abstract is empty/missing" fails on a
successful call whose response content is empty — here the oracle call
succeeds, the abstract is present and non-empty, and the row's result is
still the empty string. -/
theorem C6_success_empty_result_counterexample :
    batchAnalyze okEmptyOracle [⟨"t", some "A", "old"⟩] 0 =
      [⟨"t", some "A", ""⟩] ∧
    okEmptyOracle "A" = Except.ok "" ∧
    (some "A" ≠ (none : Option String) ∧ ("A" : String) ≠ "") :=
  ⟨by decide, rfl, by decide, by decide⟩

/-- Claim C6 (amended): for every oracle, table and start row, batch
analysis assigns exactly one result string to every processed row and the
result table keeps every row (first two conjuncts: length preserved, and
the row at each processed index is the input row with its answer set to the
per-row analysis, rows before the start row unchanged — so a per-row
failure never propagates out of the batch or touches a sibling row); the
per-row analysis yields the empty string when the abstract is missing or
empty and when the call fails, and the stripped response content when the
call succeeds (so a successful whitespace-only response also yields the
empty string). -/
theorem C6_per_row_failure_isolated :
    (∀ (oracle : String → Except String String) (rows : List DRow)
      (start : Nat), (batchAnalyze oracle rows start).length = rows.length) ∧
    (∀ (oracle : String → Except String String) (rows : List DRow)
      (start j : Nat) (h : j < rows.length)
      (h' : j < (batchAnalyze oracle rows start).length),
      (batchAnalyze oracle rows start).get ⟨j, h'⟩ =
        if start ≤ j then
          { rows.get ⟨j, h⟩ with
            answer := analyzeAbstract oracle (rows.get ⟨j, h⟩).abstract }
        else rows.get ⟨j, h⟩) ∧
    (∀ oracle : String → Except String String,
      analyzeAbstract oracle none = "" ∧ analyzeAbstract oracle (some "") = "") ∧
    (∀ (oracle : String → Except String String) (a e : String), a ≠ "" →
      oracle a = Except.error e → analyzeAbstract oracle (some a) = "") ∧
    (∀ (oracle : String → Except String String) (a c : String), a ≠ "" →
      oracle a = Except.ok c → analyzeAbstract oracle (some a) = pyStrip c) := by
  refine ⟨?_, ?_, ?_, ?_, ?_⟩
  · intro oracle rows start
    exact batchAnalyzeGo_length oracle start 0 rows
  · intro oracle rows start j h h'
    have := batchAnalyzeGo_get oracle start rows 0 j h h'
    simpa using this
  · intro oracle
    exact ⟨rfl, rfl⟩
  · intro oracle a e ha hor
    simp [analyzeAbstract, ha, hor]
  · intro oracle a c ha hor
    simp [analyzeAbstract, ha, hor]

/-- Witness for C6 (amended) at concrete inputs: a failing call yields the
empty string for its row, and the batch still returns a full table. -/
theorem C6_per_row_failure_isolated_witness :
    analyzeAbstract (fun _ => Except.error "boom") (some "A") = "" ∧
    (batchAnalyze (fun _ => Except.error "boom")
      [⟨"t", some "A", "x"⟩] 0).length = 1 :=
  ⟨C6_per_row_failure_isolated.2.2.2.1 (fun _ => Except.error "boom") "A" "boom"
    (by decide) rfl,
   (C6_per_row_failure_isolated.1 (fun _ => Except.error "boom")
    [⟨"t", some "A", "x"⟩] 0).trans rfl⟩

/-- Claim C7: any exception raised by a pipeline stage inside
`build_knowledge_graph` is caught at the top level, recorded under the
`error` key of the returned results dictionary (not re-raised — the
function is total and always returns a `BuildResults`), and every entry
accumulated before the failure (files, statistics, entities, node names,
summary) is preserved in the returned value.  One conjunct per failure
point — all eleven fallible stages, in pipeline order — each giving the
exact returned dictionary; the last two conjuncts cover the empty-search
early return and the fully successful run, both with no `error` entry. -/
theorem C7_pipeline_error_capture :
    (∀ (o : PipelineOracles) (kw e : String),
      o.searchAndSave = Except.error e →
      buildKnowledgeGraph o kw = ⟨kw, [], [], none, none, none, some e⟩) ∧
    (∀ (o : PipelineOracles) (kw sf e : String) (df : List DRow), df ≠ [] →
      o.searchAndSave = Except.ok (df, sf) →
      o.batchAnalyzeStage df = Except.error e →
      buildKnowledgeGraph o kw =
        ⟨kw, [("search_results", sf)],
         [("total_articles", StatVal.nat df.length)], none, none, none, some e⟩) ∧
    (∀ (o : PipelineOracles) (kw sf e : String) (df df2 : List DRow), df ≠ [] →
      o.searchAndSave = Except.ok (df, sf) →
      o.batchAnalyzeStage df = Except.ok df2 →
      o.saveResults df2 = Except.error e →
      buildKnowledgeGraph o kw =
        ⟨kw, [("search_results", sf)],
         [("total_articles", StatVal.nat df.length)], none, none, none, some e⟩) ∧
    (∀ (o : PipelineOracles) (kw sf cf e : String) (df df2 : List DRow),
      df ≠ [] →
      o.searchAndSave = Except.ok (df, sf) →
      o.batchAnalyzeStage df = Except.ok df2 →
      o.saveResults df2 = Except.ok cf →
      o.processEntitiesStage df2 = Except.error e →
      buildKnowledgeGraph o kw =
        ⟨kw, [("search_results", sf), ("causal_analysis", cf)],
         [("total_articles", StatVal.nat df.length)], none, none, none, some e⟩) ∧
    (∀ (o : PipelineOracles) (kw sf cf e : String) (df df2 pdf : List DRow)
      (ents : List String) (sph : List (String × String)), df ≠ [] →
      o.searchAndSave = Except.ok (df, sf) →
      o.batchAnalyzeStage df = Except.ok df2 →
      o.saveResults df2 = Except.ok cf →
      o.processEntitiesStage df2 = Except.ok (pdf, ents, sph) →
      o.saveProcessedData pdf = Except.error e →
      buildKnowledgeGraph o kw =
        ⟨kw, [("search_results", sf), ("causal_analysis", cf)],
         [("total_articles", StatVal.nat df.length)], none, none, none, some e⟩) ∧
    (∀ (o : PipelineOracles) (kw sf cf pf e : String) (df df2 pdf : List DRow)
      (ents : List String) (sph : List (String × String)), df ≠ [] →
      o.searchAndSave = Except.ok (df, sf) →
      o.batchAnalyzeStage df = Except.ok df2 →
      o.saveResults df2 = Except.ok cf →
      o.processEntitiesStage df2 = Except.ok (pdf, ents, sph) →
      o.saveProcessedData pdf = Except.ok pf →
      o.createFullNetwork pdf = Except.error e →
      buildKnowledgeGraph o kw =
        ⟨kw,
         [("search_results", sf), ("causal_analysis", cf),
          ("processed_data", pf)],
         [("total_articles", StatVal.nat df.length),
          ("total_entities", StatVal.nat ents.length),
          ("unique_entities", StatVal.int ((ents.length : Int) - sph.length))],
         some ents, none, none, some e⟩) ∧
    (∀ (o : PipelineOracles) (kw sf cf pf ff e : String)
      (df df2 pdf : List DRow) (ents : List String)
      (sph : List (String × String)), df ≠ [] →
      o.searchAndSave = Except.ok (df, sf) →
      o.batchAnalyzeStage df = Except.ok df2 →
      o.saveResults df2 = Except.ok cf →
      o.processEntitiesStage df2 = Except.ok (pdf, ents, sph) →
      o.saveProcessedData pdf = Except.ok pf →
      o.createFullNetwork pdf = Except.ok ff →
      o.createFilteredNetwork pdf = Except.error e →
      buildKnowledgeGraph o kw =
        ⟨kw,
         [("search_results", sf), ("causal_analysis", cf),
          ("processed_data", pf), ("full_network", ff)],
         [("total_articles", StatVal.nat df.length),
          ("total_entities", StatVal.nat ents.length),
          ("unique_entities", StatVal.int ((ents.length : Int) - sph.length))],
         some ents, none, none, some e⟩) ∧
    (∀ (o : PipelineOracles) (kw sf cf pf ff fi e : String)
      (df df2 pdf : List DRow) (ents nns : List String)
      (sph : List (String × String)), df ≠ [] →
      o.searchAndSave = Except.ok (df, sf) →
      o.batchAnalyzeStage df = Except.ok df2 →
      o.saveResults df2 = Except.ok cf →
      o.processEntitiesStage df2 = Except.ok (pdf, ents, sph) →
      o.saveProcessedData pdf = Except.ok pf →
      o.createFullNetwork pdf = Except.ok ff →
      o.createFilteredNetwork pdf = Except.ok (fi, nns) →
      o.analyzeNetworkStructure pdf = Except.error e →
      buildKnowledgeGraph o kw =
        ⟨kw,
         [("search_results", sf), ("causal_analysis", cf),
          ("processed_data", pf), ("full_network", ff),
          ("filtered_network", fi)],
         [("total_articles", StatVal.nat df.length),
          ("total_entities", StatVal.nat ents.length),
          ("unique_entities", StatVal.int ((ents.length : Int) - sph.length))],
         some ents, some nns, none, some e⟩) ∧
    (∀ (o : PipelineOracles) (kw sf cf pf ff fi e : String)
      (df df2 pdf : List DRow) (ents nns : List String)
      (sph : List (String × String)) (nst : List (String × Int)), df ≠ [] →
      o.searchAndSave = Except.ok (df, sf) →
      o.batchAnalyzeStage df = Except.ok df2 →
      o.saveResults df2 = Except.ok cf →
      o.processEntitiesStage df2 = Except.ok (pdf, ents, sph) →
      o.saveProcessedData pdf = Except.ok pf →
      o.createFullNetwork pdf = Except.ok ff →
      o.createFilteredNetwork pdf = Except.ok (fi, nns) →
      o.analyzeNetworkStructure pdf = Except.ok nst →
      o.generateSummary nns = Except.error e →
      buildKnowledgeGraph o kw =
        ⟨kw,
         [("search_results", sf), ("causal_analysis", cf),
          ("processed_data", pf), ("full_network", ff),
          ("filtered_network", fi)],
         [("total_articles", StatVal.nat df.length),
          ("total_entities", StatVal.nat ents.length),
          ("unique_entities", StatVal.int ((ents.length : Int) - sph.length)),
          ("network_stats", StatVal.net nst)],
         some ents, some nns, none, some e⟩) ∧
    (∀ (o : PipelineOracles) (kw sf cf pf ff fi smry e : String)
      (df df2 pdf : List DRow) (ents nns : List String)
      (sph : List (String × String)) (nst : List (String × Int)), df ≠ [] →
      o.searchAndSave = Except.ok (df, sf) →
      o.batchAnalyzeStage df = Except.ok df2 →
      o.saveResults df2 = Except.ok cf →
      o.processEntitiesStage df2 = Except.ok (pdf, ents, sph) →
      o.saveProcessedData pdf = Except.ok pf →
      o.createFullNetwork pdf = Except.ok ff →
      o.createFilteredNetwork pdf = Except.ok (fi, nns) →
      o.analyzeNetworkStructure pdf = Except.ok nst →
      o.generateSummary nns = Except.ok smry →
      o.generateFullReport = Except.error e →
      buildKnowledgeGraph o kw =
        ⟨kw,
         [("search_results", sf), ("causal_analysis", cf),
          ("processed_data", pf), ("full_network", ff),
          ("filtered_network", fi)],
         [("total_articles", StatVal.nat df.length),
          ("total_entities", StatVal.nat ents.length),
          ("unique_entities", StatVal.int ((ents.length : Int) - sph.length)),
          ("network_stats", StatVal.net nst)],
         some ents, some nns, some smry, some e⟩) ∧
    (∀ (o : PipelineOracles) (kw sf cf pf ff fi smry rf e : String)
      (df df2 pdf : List DRow) (ents nns : List String)
      (sph : List (String × String)) (nst : List (String × Int)), df ≠ [] →
      o.searchAndSave = Except.ok (df, sf) →
      o.batchAnalyzeStage df = Except.ok df2 →
      o.saveResults df2 = Except.ok cf →
      o.processEntitiesStage df2 = Except.ok (pdf, ents, sph) →
      o.saveProcessedData pdf = Except.ok pf →
      o.createFullNetwork pdf = Except.ok ff →
      o.createFilteredNetwork pdf = Except.ok (fi, nns) →
      o.analyzeNetworkStructure pdf = Except.ok nst →
      o.generateSummary nns = Except.ok smry →
      o.generateFullReport = Except.ok rf →
      o.saveResultsJson = Except.error e →
      buildKnowledgeGraph o kw =
        ⟨kw,
         [("search_results", sf), ("causal_analysis", cf),
          ("processed_data", pf), ("full_network", ff),
          ("filtered_network", fi), ("report", rf)],
         [("total_articles", StatVal.nat df.length),
          ("total_entities", StatVal.nat ents.length),
          ("unique_entities", StatVal.int ((ents.length : Int) - sph.length)),
          ("network_stats", StatVal.net nst)],
         some ents, some nns, some smry, some e⟩) ∧
    (∀ (o : PipelineOracles) (kw : String),
      o.searchAndSave = Except.ok ([], "") →
      buildKnowledgeGraph o kw =
        ⟨kw, [("search_results", "")], [("total_articles", StatVal.nat 0)],
         none, none, none, none⟩) ∧
    (∀ (o : PipelineOracles) (kw sf cf pf ff fi rf jf smry : String)
      (df df2 pdf : List DRow) (ents nns : List String)
      (sph : List (String × String)) (nst : List (String × Int)), df ≠ [] →
      o.searchAndSave = Except.ok (df, sf) →
      o.batchAnalyzeStage df = Except.ok df2 →
      o.saveResults df2 = Except.ok cf →
      o.processEntitiesStage df2 = Except.ok (pdf, ents, sph) →
      o.saveProcessedData pdf = Except.ok pf →
      o.createFullNetwork pdf = Except.ok ff →
      o.createFilteredNetwork pdf = Except.ok (fi, nns) →
      o.analyzeNetworkStructure pdf = Except.ok nst →
      o.generateSummary nns = Except.ok smry →
      o.generateFullReport = Except.ok rf →
      o.saveResultsJson = Except.ok jf →
      buildKnowledgeGraph o kw =
        ⟨kw,
         [("search_results", sf), ("causal_analysis", cf),
          ("processed_data", pf), ("full_network", ff),
          ("filtered_network", fi), ("report", rf), ("json_results", jf)],
         [("total_articles", StatVal.nat df.length),
          ("total_entities", StatVal.nat ents.length),
          ("unique_entities", StatVal.int ((ents.length : Int) - sph.length)),
          ("network_stats", StatVal.net nst)],
         some ents, some nns, some smry, none⟩) := by
  refine ⟨?_, ?_, ?_, ?_, ?_, ?_, ?_, ?_, ?_, ?_, ?_, ?_, ?_⟩
  · intro o kw e h1
    simp [buildKnowledgeGraph, h1]
  · intro o kw sf e df hdf h1 h2
    simp [buildKnowledgeGraph, h1, h2, hdf]
  · intro o kw sf e df df2 hdf h1 h2 h3
    simp [buildKnowledgeGraph, h1, h2, h3, hdf]
  · intro o kw sf cf e df df2 hdf h1 h2 h3 h4
    simp [buildKnowledgeGraph, h1, h2, h3, h4, hdf]
  · intro o kw sf cf e df df2 pdf ents sph hdf h1 h2 h3 h4 h5
    simp [buildKnowledgeGraph, h1, h2, h3, h4, h5, hdf]
  · intro o kw sf cf pf e df df2 pdf ents sph hdf h1 h2 h3 h4 h5 h6
    simp [buildKnowledgeGraph, h1, h2, h3, h4, h5, h6, hdf]
  · intro o kw sf cf pf ff e df df2 pdf ents sph hdf h1 h2 h3 h4 h5 h6 h7
    simp [buildKnowledgeGraph, h1, h2, h3, h4, h5, h6, h7, hdf]
  · intro o kw sf cf pf ff fi e df df2 pdf ents nns sph hdf
      h1 h2 h3 h4 h5 h6 h7 h8
    simp [buildKnowledgeGraph, h1, h2, h3, h4, h5, h6, h7, h8, hdf]
  · intro o kw sf cf pf ff fi e df df2 pdf ents nns sph nst hdf
      h1 h2 h3 h4 h5 h6 h7 h8 h9
    simp [buildKnowledgeGraph, h1, h2, h3, h4, h5, h6, h7, h8, h9, hdf]
  · intro o kw sf cf pf ff fi smry e df df2 pdf ents nns sph nst hdf
      h1 h2 h3 h4 h5 h6 h7 h8 h9 h10
    simp [buildKnowledgeGraph, h1, h2, h3, h4, h5, h6, h7, h8, h9, h10, hdf]
  · intro o kw sf cf pf ff fi smry rf e df df2 pdf ents nns sph nst hdf
      h1 h2 h3 h4 h5 h6 h7 h8 h9 h10 h11
    simp [buildKnowledgeGraph, h1, h2, h3, h4, h5, h6, h7, h8, h9, h10, h11, hdf]
  · intro o kw h1
    simp [buildKnowledgeGraph, h1]
  · intro o kw sf cf pf ff fi rf jf smry df df2 pdf ents nns sph nst hdf
      h1 h2 h3 h4 h5 h6 h7 h8 h9 h10 h11
    simp [buildKnowledgeGraph, h1, h2, h3, h4, h5, h6, h7, h8, h9, h10, h11, hdf]

/-- Witness for C7 at a concrete oracle record: the causal-analysis stage
raises "boom"; the returned dictionary carries the error message and the
search-stage entries. -/
theorem C7_pipeline_error_capture_witness :
    buildKnowledgeGraph failingOracles "kw" =
      ⟨"kw", [("search_results", "search.xlsx")],
       [("total_articles", StatVal.nat 1)], none, none, none, some "boom"⟩ ∧
    buildKnowledgeGraph lateFailingOracles "kw" =
      ⟨"kw",
       [("search_results", "search.xlsx"), ("causal_analysis", "causal.xlsx"),
        ("processed_data", "processed.xlsx"), ("full_network", "full.html"),
        ("filtered_network", "filtered.html"), ("report", "report.md")],
       [("total_articles", StatVal.nat 1), ("total_entities", StatVal.nat 0),
        ("unique_entities", StatVal.int 0), ("network_stats", StatVal.net [])],
       some [], some [], some "summary", some "disk full"⟩ :=
  ⟨C7_pipeline_error_capture.2.1 failingOracles "kw" "search.xlsx" "boom"
    [⟨"t", some "A", ""⟩] (by decide) rfl rfl,
   C7_pipeline_error_capture.2.2.2.2.2.2.2.2.2.2.1 lateFailingOracles "kw"
    "search.xlsx" "causal.xlsx" "processed.xlsx" "full.html" "filtered.html"
    "summary" "report.md" "disk full" [⟨"t", some "A", ""⟩]
    [⟨"t", some "A", ""⟩] [⟨"t", some "A", ""⟩] [] [] [] []
    (by decide) rfl rfl rfl rfl rfl rfl rfl rfl rfl rfl rfl⟩

end BioKG
